import Mathlib

/-!
Verification development for the llama.cpp MCP-webui orchestration layer.

Part 1 embeds `src/tools/mcp/simple-mcp-client/simple-mcp-client.cpp`:
the provider registry (`tool_to_server_map`, `connected_servers`),
the startup connection loop of `main`, `find_server_for_tool`,
`execute_tool` and the interactive command loop `run_interactive_mode`.

Part 2 embeds `src/examples/simple-function-call/simple-function-call.cpp`:
the token generation loop, the tool-call execution section of `main`
and the configuration parser `parse_config` of the MCP client.

External collaborators (SSE transport, the inference engine, the JSON
library, the shell) are modelled as oracle parameters: the embedding is
of the orchestration logic in the two source files, with each collaborator
call's outcome supplied as data.
-/

set_option autoImplicit false

namespace McpClient

/-- Mirrors `Config::ServerConfig` (name, host, port, type). -/
structure ServerConfig where
  name : String
  host : String
  port : Int
  type : String
deriving DecidableEq, Repr

/-- Mirrors `Config`: the parsed command-line configuration. -/
structure Config where
  servers : List ServerConfig
  show_instructions : Bool
deriving DecidableEq, Repr

/-- Mirrors `mcp::tool` as used by the client: only name and description matter. -/
structure MCPTool where
  name : String
  description : String
deriving DecidableEq, Repr

/-- Mirrors `MCPServerConnection` (the live `client` transport handle is an
external collaborator and is not part of the observable state). -/
structure MCPServerConnection where
  name : String
  type : String
  tools : List MCPTool
deriving DecidableEq, Repr

/-- The observable content of `std::map<std::string, std::string>
tool_to_server_map`: an association list with unique keys. -/
abbrev ToolMap := List (String × String)

/-- `m[k] = v` on a `std::map`: overwrite the binding of `k` if present,
otherwise add one. -/
def mapInsert (k v : String) : ToolMap → ToolMap
  | [] => [(k, v)]
  | (k', v') :: rest => if k' = k then (k, v) :: rest else (k', v') :: mapInsert k v rest

/-- `m.find(k)` on the association list: first binding of `k`, if any. -/
def mapFind (k : String) : ToolMap → Option String
  | [] => none
  | (k', v) :: rest => if k' = k then some v else mapFind k rest

/-- The registration loop of `connect_to_server` (lines 82-84):
`for (tool : tools) tool_to_server_map[tool.name] = server.name`. -/
def registerTools (srv : String) (tools : List MCPTool) (m : ToolMap) : ToolMap :=
  tools.foldl (fun acc t => mapInsert t.name srv acc) m

/-- Outcome of one provider connection attempt, as decided by the external
transport: an exception anywhere in the `try` block (construction,
`set_timeout`, `initialize`, `get_tools`), a `false` return from
`initialize`, or success with the fetched tool list. -/
inductive ConnectOutcome where
  | exn
  | initFailed
  | ok (tools : List MCPTool)
deriving DecidableEq, Repr

/-- Whether a connection attempt succeeded. -/
def ConnectOutcome.isOk : ConnectOutcome → Bool
  | .ok _ => true
  | _ => false

/-- The global mutable state written during startup: `connected_servers`,
`tool_to_server_map`, plus the trace of attempts (name, success flag) in
the order `main` made them — a failed attempt's `false` entry is the
logged error line. -/
structure StartupState where
  connected_servers : List MCPServerConnection
  tool_to_server_map : ToolMap
  attempts : List (String × Bool)
deriving DecidableEq, Repr

/-- `connect_to_server`: on success, registers every fetched tool into the
map and yields the connection; on `initialize` failure or an exception the
map is untouched and no connection is produced. In the source the
registration loop runs only after `get_tools` has returned, so a failed
attempt registers nothing. -/
def connect_to_server (cfg : ServerConfig) (out : ConnectOutcome) (m : ToolMap) :
    Option MCPServerConnection × ToolMap :=
  match out with
  | .ok tools => (some ⟨cfg.name, cfg.type, tools⟩, registerTools cfg.name tools m)
  | _ => (none, m)

/-- One iteration of the startup loop in `main` (lines 211-216): attempt the
connection; on success `push_back` the connection. -/
def startupStep (st : StartupState) (p : ServerConfig × ConnectOutcome) : StartupState :=
  match connect_to_server p.1 p.2 st.tool_to_server_map with
  | (some srv, m) =>
      ⟨st.connected_servers ++ [srv], m, st.attempts ++ [(p.1.name, true)]⟩
  | (none, m) =>
      ⟨st.connected_servers, m, st.attempts ++ [(p.1.name, false)]⟩

/-- The startup loop from an arbitrary intermediate state. -/
def startupFrom (st : StartupState) : List (ServerConfig × ConnectOutcome) → StartupState
  | [] => st
  | p :: l => startupFrom (startupStep st p) l

/-- The whole startup loop of `main`: each configured server paired with its
connection outcome, attempted in order from the empty global state. -/
def startup (l : List (ServerConfig × ConnectOutcome)) : StartupState :=
  startupFrom ⟨[], [], []⟩ l

/-- Linear scan of `connected_servers` for a server of the given name
(second half of `find_server_for_tool`). -/
def findServerByName (name : String) : List MCPServerConnection → Option MCPServerConnection
  | [] => none
  | s :: rest => if s.name = name then some s else findServerByName name rest

/-- `find_server_for_tool` (lines 113-124): look the tool up in
`tool_to_server_map`, then scan `connected_servers` for the owner. -/
def find_server_for_tool (st : StartupState) (tool_name : String) :
    Option MCPServerConnection :=
  match mapFind tool_name st.tool_to_server_map with
  | none => none
  | some srvName => findServerByName srvName st.connected_servers

/-- A transport round-trip made by `execute_tool`: which server's `call_tool`
was invoked, with which tool name and argument payload. -/
inductive ToolCallEvent where
  | transportCall (server tool args : String)
deriving DecidableEq, Repr

/-- Result of `execute_tool`: resolution failure, a provider result, or a
caught transport exception during the call. -/
inductive ExecOutcome where
  | notFound
  | result (server output : String)
  | execError (server : String)
deriving DecidableEq, Repr

/-- `execute_tool` (lines 127-141). `callTool server tool args` is the
external transport oracle: `some output` for a normal `call_tool` return,
`none` for a thrown transport exception (caught at lines 138-140).
The event list records every transport call made. -/
def execute_tool (st : StartupState)
    (callTool : String → String → String → Option String)
    (tool_name args : String) : ExecOutcome × List ToolCallEvent :=
  match find_server_for_tool st tool_name with
  | none => (.notFound, [])
  | some srv =>
    match callTool srv.name tool_name args with
    | some out => (.result srv.name out, [.transportCall srv.name tool_name args])
    | none => (.execError srv.name, [.transportCall srv.name tool_name args])

/-- Observable events of one interactive-loop iteration in
`run_interactive_mode`. -/
inductive SEvent where
  | instructionsShown
  | toolsListed
  | serversListed
  | toolNameMissing
  | jsonError
  | executedTool (name : String) (outcome : ExecOutcome)
  | unknownCommand (cmd : String)
deriving DecidableEq, Repr

/-- Extraction of one whitespace-delimited token, as `std::stringstream`'s
`>>` does: skip leading whitespace, take the maximal non-whitespace run;
returns the token and the unread remainder. -/
def takeTok (s : List Char) : String × List Char :=
  let s' := s.dropWhile Char.isWhitespace
  (⟨s'.takeWhile (fun c => !c.isWhitespace)⟩, s'.dropWhile (fun c => !c.isWhitespace))

/-- The trimming of line 185: erase leading characters in `" \t\n\r"`. -/
def trimArgs (s : List Char) : String :=
  ⟨s.dropWhile (fun c => c == ' ' || c == '\t' || c == '\n' || c == '\r')⟩

/-- The `while (true)` loop of `run_interactive_mode` (lines 155-205) over a
finite list of input lines. `jsonOk` is the JSON-parse oracle for the
argument blob of a `tool` command (line 192); `callTool` is the transport
oracle threaded to `execute_tool`. Returns the events of the loop and the
input lines left unread when it exits. End of input ends the loop; a break
via `exit`/`quit` leaves the rest of the input unread. The `help` command
(line 200) calls `run_interactive_mode({true})`, i.e. it prints the
instructions and runs a NESTED copy of this very loop on the remaining
input; when that inner loop breaks, the outer loop resumes on whatever
input the inner one has not consumed. Fuel only bounds the recursion depth;
every theorem below supplies enough of it. -/
def session (st : StartupState) (jsonOk : String → Bool)
    (callTool : String → String → String → Option String) :
    Nat → List String → List SEvent × List String
  | 0, input => ([], input)
  | _ + 1, [] => ([], [])
  | Nat.succ fuel, line :: rest =>
    if line = "" then session st jsonOk callTool fuel rest
    else
      let p1 := takeTok line.data
      let command := p1.1
      if command = "exit" ∨ command = "quit" then ([], rest)
      else if command = "tools" then
        let r := session st jsonOk callTool fuel rest
        (SEvent.toolsListed :: r.1, r.2)
      else if command = "servers" then
        let r := session st jsonOk callTool fuel rest
        (SEvent.serversListed :: r.1, r.2)
      else if command = "tool" then
        let p2 := takeTok p1.2
        let tool_name := p2.1
        if tool_name = "" then
          let r := session st jsonOk callTool fuel rest
          (SEvent.toolNameMissing :: r.1, r.2)
        else
          let args_str := trimArgs p2.2
          if args_str = "" then
            let r := session st jsonOk callTool fuel rest
            (SEvent.executedTool tool_name (execute_tool st callTool tool_name "").1 :: r.1, r.2)
          else if jsonOk args_str then
            let r := session st jsonOk callTool fuel rest
            (SEvent.executedTool tool_name
              (execute_tool st callTool tool_name args_str).1 :: r.1, r.2)
          else
            let r := session st jsonOk callTool fuel rest
            (SEvent.jsonError :: r.1, r.2)
      else if command = "help" then
        let inner := session st jsonOk callTool fuel rest
        let outer := session st jsonOk callTool fuel inner.2
        (SEvent.instructionsShown :: inner.1 ++ outer.1, outer.2)
      else
        let r := session st jsonOk callTool fuel rest
        (SEvent.unknownCommand command :: r.1, r.2)

/-- Result of `main`: the fatal no-servers exit (line 218-221, exit code 1)
or a completed run of the interactive session (exit code 0). -/
inductive MainResult where
  | fatalNoServers
  | finished (events : List SEvent) (remaining : List String)
deriving DecidableEq, Repr

/-- Process exit code of a `MainResult`. -/
def exitCode : MainResult → Int
  | .fatalNoServers => 1
  | .finished _ _ => 0

/-- `main` (lines 207-227): run the startup connection loop; if
`connected_servers` ended empty, exit fatally before the interactive
session; otherwise run `run_interactive_mode` (instructions first when
configured, then the loop). -/
def mainModel (l : List (ServerConfig × ConnectOutcome)) (showInstr : Bool)
    (jsonOk : String → Bool)
    (callTool : String → String → String → Option String)
    (input : List String) : MainResult :=
  let st := startup l
  if st.connected_servers.isEmpty then .fatalNoServers
  else
    let r := session st jsonOk callTool (input.length + 1) input
    .finished ((if showInstr then [SEvent.instructionsShown] else []) ++ r.1) r.2

/-- The C++ `std::stoi`: skip leading whitespace, optional sign, then a
non-empty maximal digit run; `none` models a thrown `invalid_argument`
(no digits) or `out_of_range` (outside 32-bit `int`). -/
def stoiModel (s : String) : Option Int :=
  let cs := s.data.dropWhile Char.isWhitespace
  let signed : Int × List Char :=
    match cs with
    | '-' :: r => (-1, r)
    | '+' :: r => (1, r)
    | _ => (1, cs)
  let digits := signed.2.takeWhile Char.isDigit
  if digits = [] then none
  else
    let v : Int := signed.1 * ((digits.foldl (fun a c => a * 10 + (c.toNat - '0'.toNat)) 0 : Nat) : Int)
    if v < -2147483648 ∨ 2147483647 < v then none else some v

/-- The scanning loop of `parse_config` (lines 51-63) over the arguments
after the program name. `--add-server` followed by at least four more
arguments consumes them as name/host/port/type (`none` when `std::stoi`
throws on the port — the exception is uncaught, so parsing never returns);
an `--add-server` with fewer than four arguments left matches neither
branch and is skipped like any unknown argument; `--hide-instructions`
clears the flag. -/
def parseArgsLoop : List String → Option (List ServerConfig × Bool)
  | [] => some ([], true)
  | "--add-server" :: n :: h :: p :: t :: rest' =>
    (match stoiModel p with
     | none => none
     | some port =>
       match parseArgsLoop rest' with
       | none => none
       | some (srvs, sh) => some (⟨n, h, port, t⟩ :: srvs, sh))
  | a :: rest =>
    if a = "--hide-instructions" then
      match parseArgsLoop rest with
      | none => none
      | some (srvs, _) => some (srvs, false)
    else parseArgsLoop rest

/-- `parse_config` (lines 46-65): the default server is pushed first, then
the scanned `--add-server` entries in order. `args` are the command-line
arguments after the program name; `none` models the uncaught `std::stoi`
exception aborting the process. -/
def parse_config (args : List String) : Option Config :=
  (parseArgsLoop args).map fun r =>
    { servers := ⟨"default-agent", "localhost", 8889, "llama-agent"⟩ :: r.1,
      show_instructions := r.2 }

end McpClient

namespace FnCall

/-- One sampled token, as the inference-engine collaborator reports it:
whether `llama_vocab_is_eog` holds, and the piece text from
`llama_token_to_piece` (`none` models a negative return, line 371). -/
structure SampledToken where
  isEog : Bool
  piece : Option String
deriving DecidableEq, Repr

/-- Result of the main generation loop (lines 344-385): normal completion
with the generated-unit count and the accumulated `response_text`, a fatal
`llama_decode` error (line 352-355, exits 1), a fatal token-to-piece error
(line 371-374, exits 1), or fuel exhaustion of the model (never reached by
any theorem below). -/
inductive GenResult where
  | ok (n_decode : Nat) (response : String)
  | decodeFailed (n_decode : Nat)
  | pieceFailed (n_decode : Nat)
  | fuelExhausted
deriving DecidableEq, Repr

/-- The loop `for (int n_pos = 0; n_pos + batch.n_tokens < n_prompt +
n_predict; )` of lines 350-385. `decode i` is the engine oracle for the
`llama_decode` of the iteration whose running `n_decode` counter is `i`
(`false` = nonzero return); `sample i` is the token the sampler yields
there. Each iteration: decode, advance `n_pos` by the batch size, sample;
end-of-generation breaks the loop successfully; otherwise the piece is
appended to the response and the next batch is the single new token. -/
def genLoop (decode : Nat → Bool) (sample : Nat → SampledToken)
    (n_prompt : Nat) (n_predict : Int) :
    Nat → Int → Nat → Nat → String → GenResult
  | 0, n_pos, batchSize, n_decode, response =>
    if n_pos + (batchSize : Int) < (n_prompt : Int) + n_predict then .fuelExhausted
    else .ok n_decode response
  | Nat.succ fuel, n_pos, batchSize, n_decode, response =>
    if n_pos + (batchSize : Int) < (n_prompt : Int) + n_predict then
      if decode n_decode then
        let tok := sample n_decode
        if tok.isEog then .ok n_decode response
        else
          match tok.piece with
          | none => .pieceFailed n_decode
          | some s =>
            genLoop decode sample n_prompt n_predict fuel
              (n_pos + (batchSize : Int)) 1 (n_decode + 1) (response ++ s)
      else .decodeFailed n_decode
    else .ok n_decode response

/-- The generation loop as entered by `main`: `n_pos = 0`, the first batch
holds the whole tokenized prompt (`llama_batch_get_one(prompt_tokens...)`),
`n_decode = 0` and an empty `response_text`. -/
def generation (decode : Nat → Bool) (sample : Nat → SampledToken)
    (n_prompt : Nat) (n_predict : Int) (fuel : Nat) : GenResult :=
  genLoop decode sample n_prompt n_predict fuel 0 n_prompt 0 ""

/-- A parsed tool call of `common_chat_msg::tool_calls`: name and raw
argument payload. -/
structure ToolCallMsg where
  name : String
  arguments : String
deriving DecidableEq, Repr

/-- Observable events of the function-call execution section
(lines 405-439): console prints, the confirmation outcome, and `spawned`
for an actual `execute_shell_command` (i.e. `popen`) call. -/
inductive FCEvent where
  | printedCall (name args : String)
  | printedCommand (cmd : String)
  | cancelled
  | spawned (cmd : String) (output : String)
  | argParseError
deriving DecidableEq, Repr

/-- The `for (tool_call : parsed_response.tool_calls)` loop of lines
407-439. `parseCommand` is the JSON-library oracle for
`json::parse(arguments)["command"]` (`none` = a thrown exception, caught at
line 435); `shell` is the process oracle for `execute_shell_command`;
`input` is the operator's stdin lines, one consumed per confirmation prompt
(`std::getline` at end of input yields the empty string and consumes
nothing). Returns the events in order and the unread input. -/
def handleCalls (confirm : Bool) (parseCommand : String → Option String)
    (shell : String → String) :
    List ToolCallMsg → List String → List FCEvent × List String
  | [], input => ([], input)
  | tc :: rest, input =>
    if tc.name = "shell_command" then
      match parseCommand tc.arguments with
      | none =>
        let r := handleCalls confirm parseCommand shell rest input
        (FCEvent.printedCall tc.name tc.arguments :: FCEvent.argParseError :: r.1, r.2)
      | some cmd =>
        if confirm then
          let ans := input.headD ""
          if ans = "y" ∨ ans = "Y" then
            let r := handleCalls confirm parseCommand shell rest input.tail
            (FCEvent.printedCall tc.name tc.arguments :: FCEvent.printedCommand cmd ::
              FCEvent.spawned cmd (shell cmd) :: r.1, r.2)
          else
            let r := handleCalls confirm parseCommand shell rest input.tail
            (FCEvent.printedCall tc.name tc.arguments :: FCEvent.printedCommand cmd ::
              FCEvent.cancelled :: r.1, r.2)
        else
          let r := handleCalls confirm parseCommand shell rest input
          (FCEvent.printedCall tc.name tc.arguments :: FCEvent.printedCommand cmd ::
            FCEvent.spawned cmd (shell cmd) :: r.1, r.2)
    else
      let r := handleCalls confirm parseCommand shell rest input
      (FCEvent.printedCall tc.name tc.arguments :: r.1, r.2)

end FnCall

namespace McpClient

/-- Looking up the key just inserted yields the inserted value. -/
theorem mapFind_mapInsert_self (k v : String) (m : ToolMap) :
    mapFind k (mapInsert k v m) = some v := by
  induction m with
  | nil => simp [mapInsert, mapFind]
  | cons p rest ih =>
    obtain ⟨a, b⟩ := p
    by_cases h : a = k
    · simp [mapInsert, mapFind, h]
    · simp [mapInsert, mapFind, h, ih]

/-- Inserting under one key leaves lookups of a different key unchanged. -/
theorem mapFind_mapInsert_ne (k k' v : String) (m : ToolMap) (h : k' ≠ k) :
    mapFind k' (mapInsert k v m) = mapFind k' m := by
  induction m with
  | nil => simp [mapInsert, mapFind, Ne.symm h]
  | cons p rest ih =>
    obtain ⟨a, b⟩ := p
    by_cases ha : a = k
    · subst ha
      simp [mapInsert, mapFind, Ne.symm h]
    · by_cases hk' : a = k'
      · simp [mapInsert, mapFind, ha, hk', h]
      · simp [mapInsert, mapFind, ha, hk', ih]

/-- Unfolding of the registration loop on a first tool. -/
theorem registerTools_cons (s : String) (t : MCPTool) (ts : List MCPTool) (m : ToolMap) :
    registerTools s (t :: ts) m = registerTools s ts (mapInsert t.name s m) := rfl

/-- Registering a provider's tools does not touch keys outside its tool names. -/
theorem mapFind_registerTools_of_notMem (s n : String) (ts : List MCPTool) :
    ∀ m : ToolMap, n ∉ ts.map MCPTool.name →
      mapFind n (registerTools s ts m) = mapFind n m := by
  induction ts with
  | nil => intro m _; rfl
  | cons t ts ih =>
    intro m h
    rw [List.map_cons] at h
    have h1 : n ≠ t.name := fun e => h (by rw [e]; exact List.mem_cons_self _ _)
    have h2 : n ∉ ts.map MCPTool.name := fun e => h (List.mem_cons_of_mem _ e)
    rw [registerTools_cons, ih _ h2, mapFind_mapInsert_ne _ _ _ _ h1]

/-- Registering a provider's tools maps each of its tool names to that
provider's name, whatever was there before. -/
theorem mapFind_registerTools_of_mem (s n : String) (ts : List MCPTool) :
    ∀ m : ToolMap, n ∈ ts.map MCPTool.name →
      mapFind n (registerTools s ts m) = some s := by
  induction ts with
  | nil => intro m h; cases h
  | cons t ts ih =>
    intro m h
    by_cases hmem : n ∈ ts.map MCPTool.name
    · rw [registerTools_cons, ih _ hmem]
    · have h1 : n = t.name := by
        rw [List.map_cons] at h
        rcases List.mem_cons.mp h with h' | h'
        · exact h'
        · exact absurd h' hmem
      rw [registerTools_cons, mapFind_registerTools_of_notMem s n ts _ hmem, h1,
        mapFind_mapInsert_self]

/-- The connection a startup attempt contributes, if it succeeds. -/
def connectedOf (p : ServerConfig × ConnectOutcome) : Option MCPServerConnection :=
  match p.2 with
  | .ok tools => some ⟨p.1.name, p.1.type, tools⟩
  | _ => none

/-- Every configured provider is attempted exactly once, in configuration
order, and its success or failure is recorded. -/
theorem startupFrom_attempts (l : List (ServerConfig × ConnectOutcome)) :
    ∀ st : StartupState,
      (startupFrom st l).attempts = st.attempts ++ l.map (fun p => (p.1.name, p.2.isOk)) := by
  induction l with
  | nil => intro st; simp [startupFrom]
  | cons p l ih =>
    intro st
    obtain ⟨cfg, out⟩ := p
    rw [startupFrom, ih]
    cases out <;>
      simp [startupStep, connect_to_server, ConnectOutcome.isOk, List.append_assoc]

/-- The held-provider list collects exactly the successful attempts, in
order. -/
theorem startupFrom_connected (l : List (ServerConfig × ConnectOutcome)) :
    ∀ st : StartupState,
      (startupFrom st l).connected_servers
        = st.connected_servers ++ l.filterMap connectedOf := by
  induction l with
  | nil => intro st; simp [startupFrom]
  | cons p l ih =>
    intro st
    obtain ⟨cfg, out⟩ := p
    rw [startupFrom, ih]
    cases out <;>
      simp [startupStep, connect_to_server, connectedOf, List.append_assoc]

/-- Every binding in the registry after the startup loop either was there
before the loop or names a provider of a successful attempt. -/
theorem startupFrom_mapFind (l : List (ServerConfig × ConnectOutcome)) :
    ∀ (st : StartupState) (k v : String),
      mapFind k (startupFrom st l).tool_to_server_map = some v →
      mapFind k st.tool_to_server_map = some v
        ∨ ∃ p ∈ l, p.2.isOk = true ∧ v = p.1.name := by
  induction l with
  | nil => intro st k v h; exact Or.inl h
  | cons p l ih =>
    intro st k v h
    obtain ⟨cfg, out⟩ := p
    rw [startupFrom] at h
    rcases ih _ k v h with h' | ⟨q, hq, hok, hv⟩
    · cases out with
      | ok tools =>
        by_cases hmem : k ∈ tools.map MCPTool.name
        · refine Or.inr ⟨(cfg, .ok tools), List.mem_cons_self _ _, rfl, ?_⟩
          simp only [startupStep, connect_to_server] at h'
          rw [mapFind_registerTools_of_mem _ _ _ _ hmem] at h'
          exact (Option.some.inj h').symm
        · left
          simp only [startupStep, connect_to_server] at h'
          rwa [mapFind_registerTools_of_notMem _ _ _ _ hmem] at h'
      | exn =>
        left
        simpa [startupStep, connect_to_server] using h'
      | initFailed =>
        left
        simpa [startupStep, connect_to_server] using h'
    · exact Or.inr ⟨q, List.mem_cons_of_mem _ hq, hok, hv⟩

/-- C1: after connecting provider A and then provider B (both successful,
distinct provider names), `find_server_for_tool` resolves every action name
B offers — including any name A also offers — to B (last write wins), and
resolves a name neither offers to `none` (NotFound). -/
theorem C1_registry_last_write_wins (A B : ServerConfig) (tsA tsB : List MCPTool)
    (hAB : A.name ≠ B.name) :
    (∀ t ∈ tsB,
      find_server_for_tool (startup [(A, .ok tsA), (B, .ok tsB)]) t.name
        = some ⟨B.name, B.type, tsB⟩)
    ∧ (∀ n, n ∉ tsA.map MCPTool.name → n ∉ tsB.map MCPTool.name →
      find_server_for_tool (startup [(A, .ok tsA), (B, .ok tsB)]) n = none) := by
  have hst : startup [(A, .ok tsA), (B, .ok tsB)] =
      ⟨[⟨A.name, A.type, tsA⟩, ⟨B.name, B.type, tsB⟩],
       registerTools B.name tsB (registerTools A.name tsA []),
       [(A.name, true), (B.name, true)]⟩ := rfl
  constructor
  · intro t ht
    have hfind : mapFind t.name
        (registerTools B.name tsB (registerTools A.name tsA [])) = some B.name :=
      mapFind_registerTools_of_mem _ _ _ _ (List.mem_map_of_mem _ ht)
    rw [hst]
    simp [find_server_for_tool, hfind, findServerByName, hAB]
  · intro n hnA hnB
    have hfind : mapFind n
        (registerTools B.name tsB (registerTools A.name tsA [])) = none := by
      rw [mapFind_registerTools_of_notMem _ _ _ _ hnB,
        mapFind_registerTools_of_notMem _ _ _ _ hnA]
      rfl
    rw [hst]
    simp [find_server_for_tool, hfind]

/-- Witness for C1: the spec scenario itself — A offers ["search"], B offers
["search","fetch"]; "search" and "fetch" resolve to B, "summarize" to none. -/
theorem C1_registry_last_write_wins_witness :
    ("provA" : String) ≠ "provB"
    ∧ find_server_for_tool
        (startup [(⟨"provA", "localhost", 8888, "llama-agent"⟩, .ok [⟨"search", "s"⟩]),
          (⟨"provB", "localhost", 8890, "web"⟩, .ok [⟨"search", "s"⟩, ⟨"fetch", "f"⟩])])
        "search"
        = some ⟨"provB", "web", [⟨"search", "s"⟩, ⟨"fetch", "f"⟩]⟩
    ∧ find_server_for_tool
        (startup [(⟨"provA", "localhost", 8888, "llama-agent"⟩, .ok [⟨"search", "s"⟩]),
          (⟨"provB", "localhost", 8890, "web"⟩, .ok [⟨"search", "s"⟩, ⟨"fetch", "f"⟩])])
        "fetch"
        = some ⟨"provB", "web", [⟨"search", "s"⟩, ⟨"fetch", "f"⟩]⟩
    ∧ find_server_for_tool
        (startup [(⟨"provA", "localhost", 8888, "llama-agent"⟩, .ok [⟨"search", "s"⟩]),
          (⟨"provB", "localhost", 8890, "web"⟩, .ok [⟨"search", "s"⟩, ⟨"fetch", "f"⟩])])
        "summarize"
        = none := by
  have h := C1_registry_last_write_wins ⟨"provA", "localhost", 8888, "llama-agent"⟩
      ⟨"provB", "localhost", 8890, "web"⟩ [⟨"search", "s"⟩]
      [⟨"search", "s"⟩, ⟨"fetch", "f"⟩] (by decide)
  exact ⟨by decide, h.1 ⟨"search", "s"⟩ (by simp), h.1 ⟨"fetch", "f"⟩ (by simp),
    h.2 "summarize" (by decide) (by decide)⟩

/-- C2 (refuted, code bug): the spec says show-help self-transitions in the
same session, so after `help` a single `exit` terminates the loop. The code
instead calls `run_interactive_mode({true})` from the `help` branch,
spawning a nested command loop: the first `exit` only ends that inner loop,
and the outer loop keeps reading commands. On the input lines
help, exit, tools, exit the session still executes `tools` after the first
`exit` and only the second `exit` ends it. -/
theorem C2_help_spawns_nested_session :
    session (startup []) (fun _ => false) (fun _ _ _ => none) 10
      ["help", "exit", "tools", "exit"]
      = ([SEvent.instructionsShown, SEvent.toolsListed], []) := by decide

/-- C3: if every configured provider's connection attempt fails,
`main` hits the `connected_servers.empty()` check and exits with code 1
before the interactive session ever runs. -/
theorem C3_all_failed_is_fatal (l : List (ServerConfig × ConnectOutcome))
    (showInstr : Bool) (jsonOk : String → Bool)
    (callTool : String → String → String → Option String) (input : List String)
    (h : ∀ p ∈ l, p.2.isOk = false) :
    mainModel l showInstr jsonOk callTool input = .fatalNoServers
    ∧ exitCode (mainModel l showInstr jsonOk callTool input) = 1 := by
  have hc : (startup l).connected_servers = [] := by
    rw [startup, startupFrom_connected]
    simp only [List.nil_append]
    rw [List.filterMap_eq_nil_iff]
    intro p hp
    have hfail := h p hp
    obtain ⟨cfg, out⟩ := p
    cases out with
    | ok tools => simp [ConnectOutcome.isOk] at hfail
    | exn => rfl
    | initFailed => rfl
  have hmain : mainModel l showInstr jsonOk callTool input = .fatalNoServers := by
    simp [mainModel, hc]
  exact ⟨hmain, by rw [hmain]; rfl⟩

/-- Witness for C3: one configured provider whose connection throws. -/
theorem C3_all_failed_is_fatal_witness :
    (∀ p ∈ [((⟨"a", "h", 1, "t"⟩ : ServerConfig), ConnectOutcome.exn)], p.2.isOk = false)
    ∧ mainModel [(⟨"a", "h", 1, "t"⟩, ConnectOutcome.exn)] true (fun _ => true)
        (fun _ _ _ => none) [] = .fatalNoServers
    ∧ exitCode (mainModel [(⟨"a", "h", 1, "t"⟩, ConnectOutcome.exn)] true (fun _ => true)
        (fun _ _ _ => none) []) = 1 := by
  have h := C3_all_failed_is_fatal [(⟨"a", "h", 1, "t"⟩, ConnectOutcome.exn)] true
      (fun _ => true) (fun _ _ _ => none) [] (by decide)
  exact ⟨by decide, h.1, h.2⟩

/-- C4: `execute_tool` on a name absent from `tool_to_server_map` reports
NotFound and makes no transport call at all. -/
theorem C4_unresolved_dispatch_no_contact (st : StartupState)
    (callTool : String → String → String → Option String) (name args : String)
    (h : mapFind name st.tool_to_server_map = none) :
    execute_tool st callTool name args = (.notFound, []) := by
  simp [execute_tool, find_server_for_tool, h]

/-- Witness for C4: dispatching "summarize" against an empty startup state. -/
theorem C4_unresolved_dispatch_no_contact_witness :
    mapFind "summarize" (startup []).tool_to_server_map = none
    ∧ execute_tool (startup []) (fun _ _ _ => some "r") "summarize" "" = (.notFound, []) :=
  ⟨by decide, C4_unresolved_dispatch_no_contact _ _ _ _ (by decide)⟩

/-- C5: over any sequence of connection attempts, every configured provider
is attempted exactly once in order (failures are recorded and nothing is
retried, and a failure does not stop the remaining attempts), the
held-provider list collects exactly the successful attempts, and every
registry binding names the provider of a successful attempt — failed
providers are omitted from both. -/
theorem C5_failed_connection_isolated (l : List (ServerConfig × ConnectOutcome)) :
    (startup l).attempts = l.map (fun p => (p.1.name, p.2.isOk))
    ∧ (startup l).connected_servers = l.filterMap connectedOf
    ∧ ∀ k v, mapFind k (startup l).tool_to_server_map = some v →
        ∃ p ∈ l, p.2.isOk = true ∧ v = p.1.name := by
  refine ⟨?_, ?_, ?_⟩
  · rw [startup, startupFrom_attempts]; rfl
  · rw [startup, startupFrom_connected]; rfl
  · intro k v h
    rcases startupFrom_mapFind l _ k v h with h' | h'
    · simp [mapFind] at h'
    · exact h'

/-- C8: after any startup sequence, every key of `tool_to_server_map` maps
to the name of a provider that is held in `connected_servers`. -/
theorem C8_registry_keys_name_held_providers (l : List (ServerConfig × ConnectOutcome))
    (k v : String) (h : mapFind k (startup l).tool_to_server_map = some v) :
    ∃ s ∈ (startup l).connected_servers, s.name = v := by
  rcases startupFrom_mapFind l _ k v h with h' | ⟨p, hp, hok, hv⟩
  · simp [mapFind] at h'
  · obtain ⟨cfg, out⟩ := p
    cases out with
    | ok tools =>
      refine ⟨⟨cfg.name, cfg.type, tools⟩, ?_, hv.symm⟩
      rw [startup, startupFrom_connected]
      simp only [List.nil_append, List.mem_filterMap]
      exact ⟨(cfg, .ok tools), hp, rfl⟩
    | exn => simp [ConnectOutcome.isOk] at hok
    | initFailed => simp [ConnectOutcome.isOk] at hok

/-- Witness for C8: one provider with one tool; the registry key "search"
names a held provider. -/
theorem C8_registry_keys_name_held_providers_witness :
    mapFind "search" (startup [(⟨"provA", "h", 1, "t"⟩,
        ConnectOutcome.ok [⟨"search", "s"⟩])]).tool_to_server_map = some "provA"
    ∧ ∃ s ∈ (startup [(⟨"provA", "h", 1, "t"⟩,
        ConnectOutcome.ok [⟨"search", "s"⟩])]).connected_servers, s.name = "provA" :=
  ⟨by decide, C8_registry_keys_name_held_providers
    [(⟨"provA", "h", 1, "t"⟩, ConnectOutcome.ok [⟨"search", "s"⟩])]
    "search" "provA" (by decide)⟩

/-- C9 (counterexample): a command line whose `--add-server` port is not a
number makes `std::stoi` throw; the exception is uncaught, so `parse_config`
never returns a configuration at all and no connection — in particular none
to the default provider — is attempted. -/
theorem C9_bad_port_aborts_parsing :
    parse_config ["--add-server", "srv", "localhost", "not-a-number", "web"] = none := by
  decide

/-- C9 (amended): whenever `parse_config` returns (every `--add-server` port
parses), the server list starts with the built-in default entry
default-agent / localhost / 8889 / llama-agent — hence is non-empty — and
the startup loop's first attempt is always that default provider. -/
theorem C9_default_server_always_first (args : List String) (cfg : Config)
    (h : parse_config args = some cfg) :
    cfg.servers ≠ []
    ∧ cfg.servers.head? = some ⟨"default-agent", "localhost", 8889, "llama-agent"⟩
    ∧ ∀ (out : ConnectOutcome) (outs : List ConnectOutcome),
        (startup (cfg.servers.zip (out :: outs))).attempts.head?
          = some ("default-agent", out.isOk) := by
  unfold parse_config at h
  rcases hp : parseArgsLoop args with _ | ⟨srvs, sh⟩ <;> rw [hp] at h
  · cases h
  · simp only [Option.map] at h
    have hcfg := Option.some.inj h
    subst hcfg
    refine ⟨by simp, rfl, ?_⟩
    intro out outs
    rw [startup, startupFrom_attempts]
    simp [List.zip]

/-- Witness for the amended C9: the empty command line yields exactly the
default server, and the first (failed) attempt is logged for it. -/
theorem C9_default_server_always_first_witness :
    parse_config []
      = some ⟨[⟨"default-agent", "localhost", 8889, "llama-agent"⟩], true⟩
    ∧ ([(⟨"default-agent", "localhost", 8889, "llama-agent"⟩ : ServerConfig)] ≠ [])
    ∧ ([(⟨"default-agent", "localhost", 8889, "llama-agent"⟩ : ServerConfig)].head?
        = some ⟨"default-agent", "localhost", 8889, "llama-agent"⟩)
    ∧ (startup ([(⟨"default-agent", "localhost", 8889, "llama-agent"⟩ : ServerConfig)].zip
        [ConnectOutcome.exn])).attempts.head? = some ("default-agent", false) := by
  have h := C9_default_server_always_first []
      ⟨[⟨"default-agent", "localhost", 8889, "llama-agent"⟩], true⟩ (by decide)
  exact ⟨by decide, h.1, h.2.1, h.2.2 ConnectOutcome.exn []⟩

end McpClient

namespace FnCall

/-- C6: when the total generation budget `n_prompt + n_predict` does not
exceed the prompt length — i.e. `n_predict ≤ 0` units remain to predict —
the generation loop's guard is false on entry, so no decode/sample step
runs, zero units are generated, the response buffer stays empty, and the
loop completes successfully for every engine oracle and every fuel. -/
theorem C6_budget_within_prompt_zero_units (decode : Nat → Bool)
    (sample : Nat → SampledToken) (n_prompt : Nat) (n_predict : Int) (fuel : Nat)
    (h : (n_prompt : Int) + n_predict ≤ (n_prompt : Int)) :
    generation decode sample n_prompt n_predict fuel = .ok 0 "" := by
  have hcond : ¬ ((0 : Int) + (n_prompt : Int) < (n_prompt : Int) + n_predict) := by
    omega
  cases fuel with
  | zero => unfold generation genLoop; rw [if_neg hcond]
  | succ f => unfold generation genLoop; rw [if_neg hcond]

/-- Witness for C6: a 3-token prompt with a budget 2 tokens short of it. -/
theorem C6_budget_within_prompt_zero_units_witness :
    (((3 : Nat) : Int) + (-2) ≤ ((3 : Nat) : Int))
    ∧ generation (fun _ => true) (fun _ => ⟨false, some "x"⟩) 3 (-2) 5 = .ok 0 "" :=
  ⟨by decide, C6_budget_within_prompt_zero_units (fun _ => true)
    (fun _ => ⟨false, some "x"⟩) 3 (-2) 5 (by decide)⟩

/-- C7: under `--confirm`, an operator answer other than "y"/"Y" (e.g. "n")
makes the executor print the command, report cancellation, and move on: no
`spawned` event (no `popen` child process), no error event, and the
remaining invocations are processed exactly as they would be on their own
with the remaining input. -/
theorem C7_non_affirmative_declines (tc : ToolCallMsg) (rest : List ToolCallMsg)
    (ans : String) (input : List String)
    (parseCommand : String → Option String) (shell : String → String) (cmd : String)
    (hname : tc.name = "shell_command") (hparse : parseCommand tc.arguments = some cmd)
    (h1 : ans ≠ "y") (h2 : ans ≠ "Y") :
    handleCalls true parseCommand shell (tc :: rest) (ans :: input) =
      (FCEvent.printedCall tc.name tc.arguments :: FCEvent.printedCommand cmd ::
        FCEvent.cancelled :: (handleCalls true parseCommand shell rest input).1,
       (handleCalls true parseCommand shell rest input).2) := by
  simp [handleCalls, hname, hparse, h1, h2]

/-- Witness for C7: one shell invocation, answer "n": cancelled, nothing
spawned, input consumed. -/
theorem C7_non_affirmative_declines_witness :
    ((⟨"shell_command", "payload"⟩ : ToolCallMsg).name = "shell_command")
    ∧ ((fun _ : String => some "ls")
        (⟨"shell_command", "payload"⟩ : ToolCallMsg).arguments = some "ls")
    ∧ ("n" : String) ≠ "y"
    ∧ ("n" : String) ≠ "Y"
    ∧ handleCalls true (fun _ => some "ls") (fun _ => "out")
        [⟨"shell_command", "payload"⟩] ["n"]
        = ([FCEvent.printedCall "shell_command" "payload",
            FCEvent.printedCommand "ls", FCEvent.cancelled], []) := by
  have h := C7_non_affirmative_declines ⟨"shell_command", "payload"⟩ [] "n" []
      (fun _ => some "ls") (fun _ => "out") "ls" rfl rfl (by decide) (by decide)
  exact ⟨rfl, rfl, by decide, by decide, h⟩

/-- C10: an invocation whose name is not "shell_command" only gets its name
and arguments printed — no execution branch runs, nothing is spawned, no
error line is emitted, the confirmation input is untouched, and the sibling
invocations are processed exactly as on their own. -/
theorem C10_foreign_invocation_print_only (confirm : Bool)
    (parseCommand : String → Option String) (shell : String → String)
    (tc : ToolCallMsg) (rest : List ToolCallMsg) (input : List String)
    (h : tc.name ≠ "shell_command") :
    handleCalls confirm parseCommand shell (tc :: rest) input =
      (FCEvent.printedCall tc.name tc.arguments ::
        (handleCalls confirm parseCommand shell rest input).1,
       (handleCalls confirm parseCommand shell rest input).2) := by
  simp [handleCalls, h]

/-- Witness for C10: an unknown "web_search" invocation followed by a real
shell invocation; only the print happens for the first, and the sibling
still executes. -/
theorem C10_foreign_invocation_print_only_witness :
    ((⟨"web_search", "q"⟩ : ToolCallMsg).name ≠ "shell_command")
    ∧ handleCalls false (fun _ => some "ls") (fun _ => "out")
        [⟨"web_search", "q"⟩, ⟨"shell_command", "a"⟩] ["y"]
        = ([FCEvent.printedCall "web_search" "q",
            FCEvent.printedCall "shell_command" "a", FCEvent.printedCommand "ls",
            FCEvent.spawned "ls" "out"], ["y"]) := by
  have h := C10_foreign_invocation_print_only false (fun _ => some "ls") (fun _ => "out")
      ⟨"web_search", "q"⟩ [⟨"shell_command", "a"⟩] ["y"] (by decide)
  exact ⟨by decide, by rw [h]; decide⟩

end FnCall
